import Mathlib

/-!
Shallow embedding of the hn-filtered ingestion-and-matching pipeline
(`src/news_fetcher.py`, `src/llm_processor.py`, `src/database.py`), together
with theorems settling the specification claims about it.

Python strings are modelled as Lean `String`s and the Python `str` methods
used by the code (`strip`, `split`, `lower`, `isdigit`, `int(...)`) are
embedded as executable functions on character lists.
-/

namespace HNFiltered

/-! Section: Python string primitives -/

/-- Characters stripped from both ends, Python `str.strip` with a predicate. -/
def pyStripList (f : Char → Bool) (cs : List Char) : List Char :=
  ((cs.dropWhile f).reverse.dropWhile f).reverse

/-- Python `s.strip(chars)` for a character class `f`. -/
def pyStripWith (f : Char → Bool) (s : String) : String :=
  ⟨pyStripList f s.data⟩

/-- Python `s.strip()` (whitespace strip). -/
def pyStrip (s : String) : String :=
  pyStripWith Char.isWhitespace s

/-- The character class of Python `strip("- ")`: a dash or a space. -/
def isDashSpace (c : Char) : Bool :=
  c == '-' || c == ' '

/-- Python `s.lower()` (ASCII case folding, which is all the code receives). -/
def pyLower (s : String) : String :=
  ⟨s.data.map Char.toLower⟩

/-- Python `s.split(sep)` for a one-character separator: no collapsing of
empty fields, and the empty string splits to `[""]`. -/
def splitOnChar (sep : Char) : List Char → List (List Char)
  | [] => [[]]
  | c :: rest =>
    let r := splitOnChar sep rest
    if c = sep then [] :: r
    else
      match r with
      | [] => [[c]]
      | h :: t => (c :: h) :: t

/-- Python `s.split('\n')`. -/
def pySplitLines (s : String) : List String :=
  (splitOnChar '\n' s.data).map String.mk

/-- Python `s.split('.', 1)`: `none` when the string holds no `'.'`,
otherwise the parts before and after the first `'.'`. -/
def splitFirstDot : List Char → Option (List Char × List Char)
  | [] => none
  | c :: rest =>
    if c = '.' then some ([], rest)
    else (splitFirstDot rest).map (fun p => (c :: p.1, p.2))

/-- Python `int(s)` on an already-stripped string of the shapes the parser can
meet (the line starts with a digit): succeeds exactly on non-empty all-digit
strings. -/
def decimalNat? (cs : List Char) : Option Nat :=
  if cs ≠ [] ∧ cs.all Char.isDigit then
    some (cs.foldl (fun n c => 10 * n + (c.toNat - '0'.toNat)) 0)
  else none

/-! Section: Sanity examples for the string primitives -/

example : pySplitLines "a\nb" = ["a", "b"] := by decide
example : pySplitLines "" = [""] := by decide
example : pyStrip "  a b " = "a b" := by decide
example : pyStripWith isDashSpace "- topic-" = "topic" := by decide
example : splitFirstDot "3. YES".data = some ("3".data, " YES".data) := by decide
example : decimalNat? "3".data = some 3 := by decide
example : decimalNat? "3a".data = none := by decide

/-! Section: ArticleMatcher._get_questions (src/llm_processor.py:94-106)

`[line.strip("- ").strip() for line in self.input_text.split("\n") if line.strip()]`
guarded by `if not self.input_text: return []`. -/

def get_questions (input_text : String) : List String :=
  if input_text = "" then []
  else
    ((pySplitLines input_text).filter (fun line => pyStrip line ≠ "")).map
      (fun line => pyStrip (pyStripWith isDashSpace line))

example : get_questions "- topic one\n\n  another-topic  " =
    ["topic one", "another-topic"] := by decide
example : get_questions "" = [] := by decide

/-! Section: ArticleMatcher._verify_with_llm: response parsing (src/llm_processor.py:202-232) -/

/-- One relevance verdict record, Python dict
`{'question': q, 'is_relevant': answer == 'yes', 'llm_response': answer}`. -/
structure Verdict where
  question : String
  is_relevant : Bool
  llm_response : String
deriving Repr, DecidableEq

/-- What one candidate line of the oracle response contributes to the
`answers` dict: `some (questions[q_num], answer)` for a well-formed in-range
line, `none` for a line that is skipped or discarded
(src/llm_processor.py:204-217). -/
def lineAssign (questions : List String) (line : String) : Option (String × String) :=
  match (pyStrip line).data with
  | [] => none
  | c :: rest =>
    if c.isDigit then
      match splitFirstDot (c :: rest) with
      | none => none
      | some (numPart, ansPart) =>
        match decimalNat? (pyStripList Char.isWhitespace numPart) with
        | none => none
        | some n =>
          let answer := pyLower (pyStrip ⟨ansPart⟩)
          if h : 0 < n ∧ n - 1 < questions.length then
            some (questions.get ⟨n - 1, h.2⟩, answer)
          else none
    else none

/-- The `answers` dict of the parse loop, as the ordered list of assignments
`answers[questions[q_num]] = answer` it performs. -/
def assignments (questions : List String) (response_text : String) :
    List (String × String) :=
  (pySplitLines response_text).filterMap (lineAssign questions)

/-- Python dict lookup over the assignment list: the last assignment to a key
wins (`answers.get(q, ...)` default handled by the caller). -/
def dictGet (m : List (String × String)) (k : String) : Option String :=
  m.reverse.lookup k

/-- The result list built from a successfully obtained response
(src/llm_processor.py:222-232): one entry per question, in question order,
defaulting to `'no'`. -/
def parse_response (questions : List String) (response_text : String) :
    List Verdict :=
  questions.map (fun q =>
    let answer := (dictGet (assignments questions response_text) q).getD "no"
    { question := q, is_relevant := answer == "yes", llm_response := answer })

example : parse_response ["a", "b"] "1. yes\n2. no" =
    [⟨"a", true, "yes"⟩, ⟨"b", false, "no"⟩] := by decide
example : assignments ["a", "b"] "3. YES" = [] := by decide
example : parse_response ["a", "b"] "garbage" =
    [⟨"a", false, "no"⟩, ⟨"b", false, "no"⟩] := by decide

/-! Section: ArticleMatcher._verify_with_llm: retry loop (src/llm_processor.py:132-248)

One oracle attempt either yields a response text, or fails. A failure is
either the recoverable rate-limit/quota signal (HTTP 429 for the
ollama/groq branches, `ResourceExhausted` with "quota" for the gemini
branch) or any other exception; the message models `str(e)`. -/

inductive Outcome where
  | success (response_text : String)
  | rateLimited (msg : String)
  | otherError (msg : String)
deriving Repr, DecidableEq

/-- The all-attempts-failed fallback list (src/llm_processor.py:243-248). -/
def errorResults (questions : List String) (error_msg : String) : List Verdict :=
  questions.map (fun q =>
    { question := q, is_relevant := false, llm_response := "Error: " ++ error_msg })

/-- Python `str(last_exception) if last_exception else "Unknown error"`. -/
def msgOr (lastErr : Option String) : String :=
  lastErr.getD "Unknown error"

/-- The attempt loop, one list entry per remaining attempt.  Returns the
verdict list together with the list of `time.sleep` cooldowns performed
between attempts.  A rate-limit failure on a non-final attempt sleeps 60
(src/llm_processor.py:150-155, 174-180, 186-192); on the final attempt it is
re-raised into the outer handler, which breaks without sleeping
(src/llm_processor.py:234-240).  Any other failure reaches the outer handler
(directly, or for gemini via the same 5-second path), sleeping 5 unless it
was the final attempt. -/
def runAttempts (questions : List String) :
    List Outcome → Option String → List Nat → List Verdict × List Nat
  | [], lastErr, sleeps => (errorResults questions (msgOr lastErr), sleeps.reverse)
  | o :: rest, _lastErr, sleeps =>
    match o with
    | .success txt => (parse_response questions txt, sleeps.reverse)
    | .rateLimited m =>
      if rest.isEmpty then (errorResults questions m, sleeps.reverse)
      else runAttempts questions rest (some m) (60 :: sleeps)
    | .otherError m =>
      if rest.isEmpty then (errorResults questions m, sleeps.reverse)
      else runAttempts questions rest (some m) (5 :: sleeps)

/-- Method `_verify_with_llm(article, questions, retry_count)` with the oracle's
behaviour on each of the `retry_count` attempts supplied as `outcomes`
(the article itself only feeds the prompt, which no claim depends on).
`if not questions: return []` short-circuits first
(src/llm_processor.py:110-111). -/
def verify_with_llm (questions : List String) (outcomes : List Outcome) :
    List Verdict × List Nat :=
  if questions.isEmpty then ([], [])
  else runAttempts questions outcomes none []

example : verify_with_llm ["a"] [.success "1. yes"] = ([⟨"a", true, "yes"⟩], []) := by
  decide
example :
    verify_with_llm ["a"] [.rateLimited "429", .otherError "x", .otherError "y"] =
      ([⟨"a", false, "Error: y"⟩], [60, 5]) := by decide
example : verify_with_llm [] [.otherError "x"] = ([], []) := by decide

/-! Section: NewsFetcher (src/news_fetcher.py)

The per-session seen-URL set `self._seen_urls` is modelled as a list of
normalized URLs threaded through each operation. -/

/-- Method `NewsFetcher.reset_session` (src/news_fetcher.py:16-17). -/
def reset_session (_seen : List String) : List String := []

/-- Method `NewsFetcher._mark_if_new` (src/news_fetcher.py:19-26): returns the bool
result and the updated seen set. -/
def mark_if_new (seen : List String) (url : String) : Bool × List String :=
  let normalized := pyStrip url
  if normalized = "" then (false, seen)
  else if normalized ∈ seen then (false, seen)
  else (true, normalized :: seen)

/-- The canonical article record built by the fetchers.  News-API articles
carry no `hn_comments` key, modelled as `none`. -/
structure Article where
  title : String
  url : String
  source : String
  date : String
  content : String
  hn_comments : Option Nat := none
deriving Repr, DecidableEq

/-- One article object of a News-API JSON response, with the fields
`fetch_news_api_articles` reads. -/
structure RawNewsArticle where
  title : String
  url : String
  publishedAt : String
deriving Repr, DecidableEq

/-- Method `NewsFetcher.fetch_news_api_articles` (src/news_fetcher.py:28-56) on the
decoded response articles.  `getContent` embeds `_get_article_content`
(network + newspaper3k, an external collaborator that never throws);
`config.USE_CONTENT_FOR_FILTERING` is `True` so it is always consulted.
An upstream request failure returns `[]` before any URL is marked,
which coincides with an empty `raws` list. -/
def fetch_news_api_articles (getContent : String → String) (source : String)
    (seen : List String) : List RawNewsArticle → List Article × List String
  | [] => ([], seen)
  | r :: rest =>
    let step := mark_if_new seen r.url
    let next := fetch_news_api_articles getContent source step.2 rest
    if step.1 then
      ({ title := r.title, url := r.url, source := source, date := r.publishedAt,
         content := getContent r.url, hn_comments := none } :: next.1, next.2)
    else next

/-- One Algolia hit as read by `fetch_hacker_news`:
`story.get("url")` may be absent (`none`). -/
structure HNStory where
  title : String
  url : Option String
  num_comments : Nat
  created_at_i : Nat
  objectID : String
deriving Repr, DecidableEq

/-- Python truthiness of `s.get("url")`: present and non-empty
(src/news_fetcher.py:112). -/
def urlTruthy (s : HNStory) : Bool :=
  match s.url with
  | none => false
  | some u => u ≠ ""

/-- Stable insertion step for
`all_stories.sort(key=lambda x: x.get("num_comments", 0), reverse=True)`. -/
def insertByCommentsDesc (s : HNStory) : List HNStory → List HNStory
  | [] => [s]
  | t :: ts =>
    if s.num_comments < t.num_comments then t :: insertByCommentsDesc s ts
    else s :: t :: ts

/-- The descending stable sort by comment count (src/news_fetcher.py:109). -/
def sortByCommentsDesc : List HNStory → List HNStory
  | [] => []
  | s :: ss => insertByCommentsDesc s (sortByCommentsDesc ss)

/-- Python `datetime.fromtimestamp(t).isoformat()` modelled as an injective function
of the epoch timestamp; its exact rendering matters to no claim. -/
def isoformat (t : Nat) : String :=
  "timestamp:" ++ toString t

/-- The article dict built for one surviving story
(src/news_fetcher.py:133-142). -/
def mkHNArticle (getContent : String → String) (s : HNStory) : Article :=
  { title := s.title
    url := s.url.getD ""
    source := "hacker-news"
    date := isoformat s.created_at_i
    content := getContent (s.url.getD "")
    hn_comments := some s.num_comments }

/-- The emission loop over `articles_to_process`
(src/news_fetcher.py:128-142): each story's URL goes through
`_mark_if_new`; the discussion-URL field, built from `objectID`, is read by
no claim and is left out of the record. -/
def hnEmitLoop (getContent : String → String) (seen : List String) :
    List HNStory → List Article × List String
  | [] => ([], seen)
  | s :: rest =>
    let step := mark_if_new seen (s.url.getD "")
    let next := hnEmitLoop getContent step.2 rest
    if step.1 then (mkHNArticle getContent s :: next.1, next.2)
    else next

/-- Method `NewsFetcher.fetch_hacker_news` (src/news_fetcher.py:58-156) on the
accumulated Algolia hits `stories` (pagination, the 7-day window and the
`num_comments >= min_comments` filter all happen upstream of this list):
sort descending by comment count, keep the stories with a truthy URL, take
the first `max_items` (= `config.MAX_ARTICLES_PER_SOURCE`), then emit
through the deduplicator. -/
def fetch_hacker_news (getContent : String → String) (max_items : Nat)
    (seen : List String) (stories : List HNStory) : List Article × List String :=
  hnEmitLoop getContent seen
    (((sortByCommentsDesc stories).filter urlTruthy).take max_items)

/-- The `for source in config.SOURCES` loop of `fetch_all_articles`
(src/news_fetcher.py:173-177): every non-`"hacker-news"` source is queried
through `fetch_news_api_articles`; `newsData` supplies each source's
decoded upstream response. -/
def newsSourcesLoop (getContent : String → String)
    (newsData : String → List RawNewsArticle) (seen : List String) :
    List String → List Article × List String
  | [] => ([], seen)
  | src :: rest =>
    if src = "hacker-news" then newsSourcesLoop getContent newsData seen rest
    else
      let first := fetch_news_api_articles getContent src seen (newsData src)
      let next := newsSourcesLoop getContent newsData first.2 rest
      (first.1 ++ next.1, next.2)

/-- Method `NewsFetcher.fetch_all_articles` (src/news_fetcher.py:169-183). -/
def fetch_all_articles (getContent : String → String) (max_items : Nat)
    (sources : List String) (newsData : String → List RawNewsArticle)
    (hnStories : List HNStory) (seen : List String) :
    List Article × List String :=
  let first := newsSourcesLoop getContent newsData seen sources
  let hn := fetch_hacker_news getContent max_items first.2 hnStories
  (first.1 ++ hn.1, hn.2)

/-! Section: ArticleMatcher.process_article / process_articles
(src/llm_processor.py:250-336) and the persistence collaborator
(src/database.py).

Class `ArticleDatabase` (src/database.py) defines `__init__`,
`_create_table`, `save_article`, `get_all_articles` and `__del__` — and
nothing more.  In particular it defines no `article_exists`, and no other
file in the repository defines or patches one; yet the first statement of
`process_article` (src/llm_processor.py:253) is
`if self.db.article_exists(article['url'])`.  That attribute lookup raises
`AttributeError`, and line 253 sits outside the per-article `try` that
only begins at line 262, so the exception escapes `process_article`,
propagates through the `process_articles` generator (lines 331-336, which
has no handler), and aborts the stream at the first input article.  The
definitions below embed this actual behaviour; the skip / verify / save /
yield code further down the method body is unreachable.  The database
handle is modelled as the list of saved URLs (never touched, since no
save is ever reached). -/

/-- One match dict of `verified_matches` in the
`config.USE_EMBEDDING_FILTER = False` branch (src/llm_processor.py:291-300);
the shape of the entries a `matches` list would hold. -/
structure MatchEntry where
  question : String
  relevance : String
  llm_response : String
deriving Repr, DecidableEq

/-- The processed-article dict (src/llm_processor.py:302-313) the method
body would build; with the missing `article_exists` no call ever
constructs one, but it is the element type of the generator's yields. -/
structure ProcessedArticle where
  title : String
  url : String
  source : String
  content : String := ""
  date : String := ""
  «matches» : List MatchEntry
  hn_comments : Option Nat := none
deriving Repr, DecidableEq

/-- The Python exception text of the failing attribute lookup
`self.db.article_exists` at src/llm_processor.py:253. -/
def article_exists_error : String :=
  "AttributeError: 'ArticleDatabase' object has no attribute 'article_exists'"

/-- Method `ArticleMatcher.process_article` (src/llm_processor.py:250-329)
as the source behaves: its first statement raises `AttributeError` —
`ArticleDatabase` has no `article_exists` — outside the per-article `try`
at line 262, so every call terminates exceptionally before any skip,
verification, database access or return; the database state, topic text,
article and oracle behaviour are never consulted.  `.error` carries the
escaping exception; the `.ok` payload type records what a normal return
would carry (the optional processed article and the database). -/
def process_article (_db : List String) (_input_text : String)
    (_article : Article) (_behavior : Except String (List Outcome)) :
    Except String (Option ProcessedArticle × List String) :=
  .error article_exists_error

/-- Method `ArticleMatcher.process_articles` (src/llm_processor.py:331-336):
the generator yields each processed article with truthy `matches`, and
lets any exception escaping `process_article` propagate, which ends the
stream.  The model returns the articles yielded before termination
together with either the final database (normal exhaustion) or the
escaping exception. -/
def process_articles (db : List String) (input_text : String) :
    List (Article × Except String (List Outcome)) →
    List ProcessedArticle × Except String (List String)
  | [] => ([], .ok db)
  | (a, b) :: rest =>
    match process_article db input_text a b with
    | .error e => ([], .error e)
    | .ok (res, db') =>
      match res with
      | some pa =>
        if pa.«matches».isEmpty then process_articles db' input_text rest
        else
          (pa :: (process_articles db' input_text rest).1,
           (process_articles db' input_text rest).2)
      | none => process_articles db' input_text rest

/-! Section: Classifiers for attempt outcomes, used by the retry-policy claims -/

/-- Whether an attempt outcome is a failure (any raised exception). -/
def isFail : Outcome → Bool
  | .success _ => false
  | .rateLimited _ => true
  | .otherError _ => true

/-- The message `str(e)` of a failing outcome (the response text of a success, unused). -/
def errMsgOf : Outcome → String
  | .success t => t
  | .rateLimited m => m
  | .otherError m => m

/-- The cooldown `_verify_with_llm` sleeps after a failed non-final attempt:
60 on the rate-limit/quota path, 5 on any other exception. -/
def cooldownOf : Outcome → Nat
  | .success _ => 0
  | .rateLimited _ => 60
  | .otherError _ => 5

/-- The normalized-URL distinctness relation used by the dedup invariant. -/
def urlDistinct (a b : Article) : Prop :=
  pyStrip a.url ≠ pyStrip b.url

/-- The descending comment-count ordering on stories. -/
def commentsGE (a b : HNStory) : Prop :=
  b.num_comments ≤ a.num_comments

/-- Modelled from the spec: the Topic data-model sentence describes a line
"stripped of leading `"- "` markers and surrounding whitespace" — leading
markers only.  (The source strips with `line.strip("- ")`, which acts on
both ends; this definition renders the spec's words for comparison.) -/
def dropLeadingMarkers : List Char → List Char
  | '-' :: ' ' :: rest => dropLeadingMarkers rest
  | cs => cs

/-- Modelled from the spec: a Topic as the spec's words describe it. -/
def spec_topic_of_line (line : String) : String :=
  pyStrip ⟨dropLeadingMarkers (pyStrip line).data⟩

/-! Section: Lemmas about the verdict lists -/

lemma parse_response_map_question (questions : List String) (txt : String) :
    (parse_response questions txt).map Verdict.question = questions := by
  rw [parse_response, List.map_map]
  exact List.map_id'' (fun q => rfl) questions

lemma errorResults_map_question (questions : List String) (m : String) :
    (errorResults questions m).map Verdict.question = questions := by
  rw [errorResults, List.map_map]
  exact List.map_id'' (fun q => rfl) questions

lemma runAttempts_map_question (questions : List String) :
    ∀ (outcomes : List Outcome) (lastErr : Option String) (sleeps : List Nat),
      ((runAttempts questions outcomes lastErr sleeps).1).map Verdict.question
        = questions := by
  intro outcomes
  induction outcomes with
  | nil =>
    intro lastErr sleeps
    simpa [runAttempts] using errorResults_map_question questions (msgOr lastErr)
  | cons o rest ih =>
    intro lastErr sleeps
    cases o with
    | success txt => simpa [runAttempts] using parse_response_map_question questions txt
    | rateLimited m =>
      by_cases h : rest.isEmpty
      · simpa [runAttempts, h] using errorResults_map_question questions m
      · simpa [runAttempts, h] using ih (some m) (60 :: sleeps)
    | otherError m =>
      by_cases h : rest.isEmpty
      · simpa [runAttempts, h] using errorResults_map_question questions m
      · simpa [runAttempts, h] using ih (some m) (5 :: sleeps)

/-- C1: every completed `_verify_with_llm` call returns one verdict per input
topic, in the input order — the projection of the result to its `question`
fields is the input topic list itself, for every oracle behaviour (any
response texts, any failures, the error-fallback path included), and the
empty topic list yields the empty result. -/
theorem c1_one_verdict_per_topic_in_input_order :
    ∀ (questions : List String) (outcomes : List Outcome),
      ((verify_with_llm questions outcomes).1).map Verdict.question = questions := by
  intro questions outcomes
  cases questions with
  | nil => rfl
  | cons q rest =>
    simpa [verify_with_llm] using
      runAttempts_map_question (q :: rest) outcomes none []

/-- C3: when all three attempts fail, `_verify_with_llm` returns (rather than
raising) the list marking every topic not-relevant with an
`"Error: <cause>"` response, having slept 60 time units after a failed
non-final rate-limit/quota attempt and 5 after any other failed non-final
attempt. -/
theorem c3_all_attempts_failed_degrades_to_error_list
    (questions : List String) (o1 o2 o3 : Outcome) (hq : questions ≠ [])
    (h1 : isFail o1 = true) (h2 : isFail o2 = true) (h3 : isFail o3 = true) :
    verify_with_llm questions [o1, o2, o3] =
      (questions.map (fun q =>
        { question := q, is_relevant := false,
          llm_response := "Error: " ++ errMsgOf o3 }),
       [cooldownOf o1, cooldownOf o2]) := by
  have hq' : questions.isEmpty = false := by
    cases questions with
    | nil => exact absurd rfl hq
    | cons a l => rfl
  cases o1 <;> cases o2 <;> cases o3 <;>
    simp_all [verify_with_llm, runAttempts, errorResults, isFail, errMsgOf,
      cooldownOf]

theorem c3_all_attempts_failed_degrades_to_error_list_witness :
    verify_with_llm ["t"]
        [.rateLimited "429", .otherError "boom", .rateLimited "quota"] =
      ([⟨"t", false, "Error: quota"⟩], [60, 5]) :=
  c3_all_attempts_failed_degrades_to_error_list ["t"]
    (.rateLimited "429") (.otherError "boom") (.rateLimited "quota")
    (by decide) rfl rfl rfl

/-! Section: C4: a blank-lines oracle response -/

/-- C4 counterexample: with the oracle producing only blank lines on every
attempt, `_verify_with_llm` does NOT retry — the first attempt's response
parses to an empty answer map and is returned at once (zero cooldowns), with
every topic defaulting to `is_relevant = false` and `llm_response = "no"`,
which carries no error tag.  The claim's "retried for all 3 attempts" and
"raw response tagged with an error string" both fail here. -/
theorem c4_counterexample_blank_lines_not_retried :
    verify_with_llm ["t"]
        [.success "\n \n", .success "\n \n", .success "\n \n"] =
      ([⟨"t", false, "no"⟩], []) ∧
    "Error".isPrefixOf "no" = false := by
  decide

lemma lineAssign_of_strip_empty (questions : List String) (line : String)
    (h : pyStrip line = "") : lineAssign questions line = none := by
  simp [lineAssign, h]

lemma assignments_eq_nil (questions : List String) (txt : String)
    (h : ∀ l ∈ pySplitLines txt, pyStrip l = "") :
    assignments questions txt = [] := by
  rw [assignments, List.filterMap_eq_nil_iff]
  intro l hl
  exact lineAssign_of_strip_empty questions l (h l hl)

lemma parse_response_of_no_assignments (questions : List String) (txt : String)
    (h : assignments questions txt = []) :
    parse_response questions txt =
      questions.map (fun q => ⟨q, false, "no"⟩) := by
  simp [parse_response, h, dictGet]

/-- C4 as amended: an oracle response containing only blank lines is a total
parse failure that is NOT retried — the call returns on that very attempt
(no cooldown) with every topic marked `is_relevant = false` and raw response
`"no"` (not an error tag); and the article is still never yielded by the
pipeline, though not through a verdict-based drop: `process_articles`
aborts with the `AttributeError` of the missing
`ArticleDatabase.article_exists` before the oracle is ever consulted. -/
theorem c4_amended_blank_lines_default_no_and_drop :
    ∀ (txt : String), (∀ l ∈ pySplitLines txt, pyStrip l = "") →
      (∀ (questions : List String) (rest : List Outcome),
        verify_with_llm questions (.success txt :: rest) =
          (questions.map (fun q => ⟨q, false, "no"⟩), [])) ∧
      (∀ (db : List String) (input_text : String) (article : Article)
          (rest : List Outcome),
        (process_articles db input_text
          [(article, .ok (.success txt :: rest))]).1 = [] ∧
        (process_articles db input_text
          [(article, .ok (.success txt :: rest))]).2 =
            .error article_exists_error) := by
  intro txt hblank
  have hparse : ∀ questions : List String,
      parse_response questions txt = questions.map (fun q => ⟨q, false, "no"⟩) :=
    fun questions => parse_response_of_no_assignments questions txt
      (assignments_eq_nil questions txt hblank)
  have hverify : ∀ (questions : List String) (rest : List Outcome),
      verify_with_llm questions (.success txt :: rest) =
        (questions.map (fun q => ⟨q, false, "no"⟩), []) := by
    intro questions rest
    cases questions with
    | nil => rfl
    | cons q qs => simp [verify_with_llm, runAttempts, hparse]
  exact ⟨hverify, fun db input_text article rest => ⟨rfl, rfl⟩⟩

theorem c4_amended_blank_lines_default_no_and_drop_witness :
    verify_with_llm ["t"] [Outcome.success "\n \n"] = ([⟨"t", false, "no"⟩], []) ∧
    (process_articles [] "t"
      [(⟨"A", "u", "s", "d", "c", none⟩, .ok [Outcome.success "\n \n"])]).1 = [] := by
  have h := c4_amended_blank_lines_default_no_and_drop "\n \n" (by decide)
  exact ⟨h.1 ["t"] [], (h.2 [] "t" ⟨"A", "u", "s", "d", "c", none⟩ []).1⟩

/-! Section: C2: out-of-range lines are discarded, unanswered topics default -/

lemma lineAssign_key_mem (questions : List String) (line : String)
    (p : String × String) (h : lineAssign questions line = some p) :
    p.1 ∈ questions := by
  rw [lineAssign] at h
  split at h
  · exact absurd h (by simp)
  · split at h
    · split at h
      · exact absurd h (by simp)
      · split at h
        · exact absurd h (by simp)
        · split at h
          · cases h
            exact List.get_mem questions _ _
          · exact absurd h (by simp)
    · exact absurd h (by simp)

/-- C2: (i) on the boundary input, the answer line `"3. YES"` against a
2-topic list is discarded — it produces no assignment, and both topics get
the default verdict; (ii) every assignment the parser does produce is keyed
by one of the supplied topics (an out-of-range number is never
mis-assigned); (iii) a topic whose text has no parsed answer line receives
the default verdict `is_relevant = false`, `llm_response = "no"`. -/
theorem c2_out_of_range_discarded_unanswered_default_no :
    (assignments ["topic one", "topic two"] "3. YES" = [] ∧
     parse_response ["topic one", "topic two"] "3. YES" =
       [⟨"topic one", false, "no"⟩, ⟨"topic two", false, "no"⟩]) ∧
    (∀ (questions : List String) (line : String) (p : String × String),
      lineAssign questions line = some p → p.1 ∈ questions) ∧
    (∀ (questions : List String) (txt : String) (i : Nat)
        (h : i < questions.length),
      dictGet (assignments questions txt) questions[i] = none →
      (parse_response questions txt)[i]? = some ⟨questions[i], false, "no"⟩) := by
  refine ⟨by decide, lineAssign_key_mem, ?_⟩
  intro questions txt i h hnone
  simp [parse_response, List.getElem?_eq_getElem, h, hnone]

theorem c2_out_of_range_discarded_unanswered_default_no_witness :
    (("a", "yes") : String × String).1 ∈ ["a", "b"] ∧
    (parse_response ["a"] "junk")[0]? = some ⟨"a", false, "no"⟩ :=
  ⟨c2_out_of_range_discarded_unanswered_default_no.2.1 ["a", "b"] "1. yes"
      ("a", "yes") (by decide),
   c2_out_of_range_discarded_unanswered_default_no.2.2 ["a"] "junk" 0
      (by decide) (by decide)⟩

/-! Section: C10: a later answer line for the same topic index overwrites -/

/-- C10: the answer map has Python-dict overwrite semantics — appending an
assignment for a key makes the lookup return that later value whatever came
before — and end to end, of two answer lines decoding to the same in-range
topic index the last one decides the verdict. -/
theorem c10_later_duplicate_line_overwrites :
    (∀ (m : List (String × String)) (k v : String),
      dictGet (m ++ [(k, v)]) k = some v) ∧
    parse_response ["t"] "1. yes\n1. no" = [⟨"t", false, "no"⟩] ∧
    parse_response ["t"] "1. no\n1. yes" = [⟨"t", true, "yes"⟩] := by
  refine ⟨?_, by decide, by decide⟩
  intro m k v
  simp [dictGet, List.lookup]

/-! Section: Deduplicator lemmas (C5, C6) -/

lemma mark_if_new_fst_false_of_strip_empty (seen : List String) (url : String)
    (h : pyStrip url = "") : (mark_if_new seen url).1 = false := by
  simp [mark_if_new, h]

lemma mark_if_new_fst_true_of_new (seen : List String) (url : String)
    (hne : pyStrip url ≠ "") (hmem : pyStrip url ∉ seen) :
    (mark_if_new seen url).1 = true := by
  simp [mark_if_new, hne, hmem]

lemma mark_if_new_snd_of_false (seen : List String) (url : String)
    (h : (mark_if_new seen url).1 = false) :
    (mark_if_new seen url).2 = seen := by
  rw [mark_if_new] at h ⊢
  split_ifs at h ⊢
  all_goals simp_all

lemma mark_if_new_of_true (seen : List String) (url : String)
    (h : (mark_if_new seen url).1 = true) :
    pyStrip url ∉ seen ∧ (mark_if_new seen url).2 = pyStrip url :: seen := by
  rw [mark_if_new] at h ⊢
  split_ifs at h ⊢
  all_goals simp_all

lemma mark_if_new_strip_mem_snd (seen : List String) (url : String)
    (h : pyStrip url ≠ "") : pyStrip url ∈ (mark_if_new seen url).2 := by
  rw [mark_if_new]
  split_ifs with h1 h2
  · exact absurd h1 h
  · exact h2
  · exact List.mem_cons_self _ _

lemma mark_if_new_subset (seen : List String) (url : String) :
    seen ⊆ (mark_if_new seen url).2 := by
  rw [mark_if_new]
  split_ifs <;> simp [List.subset_cons_of_subset, List.Subset.refl]

/-- The dedup invariant of the Hacker-News emission loop: every emitted
article's normalized URL is new at entry and recorded at exit, the seen set
only grows, and no two emitted articles share a normalized URL. -/
lemma hnEmitLoop_inv (getContent : String → String) :
    ∀ (xs : List HNStory) (seen : List String),
      (∀ a ∈ (hnEmitLoop getContent seen xs).1,
        pyStrip a.url ∉ seen ∧ pyStrip a.url ∈ (hnEmitLoop getContent seen xs).2) ∧
      seen ⊆ (hnEmitLoop getContent seen xs).2 ∧
      List.Pairwise urlDistinct (hnEmitLoop getContent seen xs).1 := by
  intro xs
  induction xs with
  | nil => exact fun seen => ⟨by simp [hnEmitLoop], by simp [hnEmitLoop], by
      simp [hnEmitLoop]⟩
  | cons s rest ih =>
    intro seen
    by_cases hm : (mark_if_new seen (s.url.getD "")).1 = true
    · obtain ⟨hnotin, hsnd⟩ := mark_if_new_of_true seen (s.url.getD "") hm
      have hne : pyStrip (s.url.getD "") ≠ "" := by
        intro hempty
        rw [mark_if_new_fst_false_of_strip_empty seen _ hempty] at hm
        exact Bool.false_ne_true hm
      have hrec := ih (mark_if_new seen (s.url.getD "")).2
      have hres : hnEmitLoop getContent seen (s :: rest) =
          (mkHNArticle getContent s ::
            (hnEmitLoop getContent (mark_if_new seen (s.url.getD "")).2 rest).1,
           (hnEmitLoop getContent (mark_if_new seen (s.url.getD "")).2 rest).2) := by
        rw [hnEmitLoop, if_pos hm]
      rw [hres]
      obtain ⟨hmem, hsub, hpw⟩ := hrec
      have hurlhead : pyStrip (mkHNArticle getContent s).url = pyStrip (s.url.getD "") := rfl
      refine ⟨?_, ?_, ?_⟩
      · intro a ha
        rcases List.mem_cons.mp ha with rfl | ha
        · refine ⟨by rw [hurlhead]; exact hnotin, ?_⟩
          rw [hurlhead]
          exact hsub (hsnd ▸ List.mem_cons_self _ _)
        · obtain ⟨h1, h2⟩ := hmem a ha
          refine ⟨fun hc => h1 ?_, h2⟩
          rw [hsnd]
          exact List.mem_cons_of_mem _ hc
      · intro u hu
        exact hsub (mark_if_new_subset seen _ hu)
      · refine List.pairwise_cons.mpr ⟨?_, hpw⟩
        intro a ha
        obtain ⟨h1, _⟩ := hmem a ha
        intro hc
        apply h1
        rw [hsnd, ← hc, hurlhead]
        exact List.mem_cons_self _ _
    · have hm' : (mark_if_new seen (s.url.getD "")).1 = false :=
        Bool.not_eq_true _ ▸ Bool.eq_false_iff.mpr hm
      have hsnd := mark_if_new_snd_of_false seen (s.url.getD "") hm'
      have hres : hnEmitLoop getContent seen (s :: rest) =
          hnEmitLoop getContent seen rest := by
        rw [hnEmitLoop, if_neg hm, hsnd]
      rw [hres]
      exact ih seen

/-- The same dedup invariant for the News-API emission loop. -/
lemma fetch_news_api_articles_inv (getContent : String → String) (source : String) :
    ∀ (rs : List RawNewsArticle) (seen : List String),
      (∀ a ∈ (fetch_news_api_articles getContent source seen rs).1,
        pyStrip a.url ∉ seen ∧
          pyStrip a.url ∈ (fetch_news_api_articles getContent source seen rs).2) ∧
      seen ⊆ (fetch_news_api_articles getContent source seen rs).2 ∧
      List.Pairwise urlDistinct (fetch_news_api_articles getContent source seen rs).1 := by
  intro rs
  induction rs with
  | nil => exact fun seen => ⟨by simp [fetch_news_api_articles],
      by simp [fetch_news_api_articles], by simp [fetch_news_api_articles]⟩
  | cons r rest ih =>
    intro seen
    by_cases hm : (mark_if_new seen r.url).1 = true
    · obtain ⟨hnotin, hsnd⟩ := mark_if_new_of_true seen r.url hm
      have hrec := ih (mark_if_new seen r.url).2
      have hres : fetch_news_api_articles getContent source seen (r :: rest) =
          ({ title := r.title, url := r.url, source := source,
             date := r.publishedAt, content := getContent r.url,
             hn_comments := none } ::
            (fetch_news_api_articles getContent source
              (mark_if_new seen r.url).2 rest).1,
           (fetch_news_api_articles getContent source
              (mark_if_new seen r.url).2 rest).2) := by
        rw [fetch_news_api_articles, if_pos hm]
      rw [hres]
      obtain ⟨hmem, hsub, hpw⟩ := hrec
      refine ⟨?_, ?_, ?_⟩
      · intro a ha
        rcases List.mem_cons.mp ha with rfl | ha
        · exact ⟨hnotin, hsub (hsnd ▸ List.mem_cons_self _ _)⟩
        · obtain ⟨h1, h2⟩ := hmem a ha
          refine ⟨fun hc => h1 ?_, h2⟩
          rw [hsnd]
          exact List.mem_cons_of_mem _ hc
      · intro u hu
        exact hsub (mark_if_new_subset seen _ hu)
      · refine List.pairwise_cons.mpr ⟨?_, hpw⟩
        intro a ha
        obtain ⟨h1, _⟩ := hmem a ha
        intro hc
        apply h1
        rw [hsnd, ← hc]
        exact List.mem_cons_self _ _
    · have hm' : (mark_if_new seen r.url).1 = false :=
        Bool.not_eq_true _ ▸ Bool.eq_false_iff.mpr hm
      have hsnd := mark_if_new_snd_of_false seen r.url hm'
      have hres : fetch_news_api_articles getContent source seen (r :: rest) =
          fetch_news_api_articles getContent source seen rest := by
        rw [fetch_news_api_articles, if_neg hm, hsnd]
      rw [hres]
      exact ih seen

/-- The dedup invariant for the per-source loop of `fetch_all_articles`. -/
lemma newsSourcesLoop_inv (getContent : String → String)
    (newsData : String → List RawNewsArticle) :
    ∀ (srcs : List String) (seen : List String),
      (∀ a ∈ (newsSourcesLoop getContent newsData seen srcs).1,
        pyStrip a.url ∉ seen ∧
          pyStrip a.url ∈ (newsSourcesLoop getContent newsData seen srcs).2) ∧
      seen ⊆ (newsSourcesLoop getContent newsData seen srcs).2 ∧
      List.Pairwise urlDistinct (newsSourcesLoop getContent newsData seen srcs).1 := by
  intro srcs
  induction srcs with
  | nil => exact fun seen => ⟨by simp [newsSourcesLoop],
      by simp [newsSourcesLoop], by simp [newsSourcesLoop]⟩
  | cons src rest ih =>
    intro seen
    by_cases hsrc : src = "hacker-news"
    · have hres : newsSourcesLoop getContent newsData seen (src :: rest) =
          newsSourcesLoop getContent newsData seen rest := by
        rw [newsSourcesLoop, if_pos hsrc]
      rw [hres]
      exact ih seen
    · have hres : newsSourcesLoop getContent newsData seen (src :: rest) =
          ((fetch_news_api_articles getContent src seen (newsData src)).1 ++
            (newsSourcesLoop getContent newsData
              (fetch_news_api_articles getContent src seen (newsData src)).2 rest).1,
           (newsSourcesLoop getContent newsData
              (fetch_news_api_articles getContent src seen (newsData src)).2 rest).2) := by
        rw [newsSourcesLoop, if_neg hsrc]
      rw [hres]
      obtain ⟨hmem₁, hsub₁, hpw₁⟩ :=
        fetch_news_api_articles_inv getContent src (newsData src) seen
      obtain ⟨hmem₂, hsub₂, hpw₂⟩ :=
        ih (fetch_news_api_articles getContent src seen (newsData src)).2
      refine ⟨?_, fun u hu => hsub₂ (hsub₁ hu), ?_⟩
      · intro a ha
        rcases List.mem_append.mp ha with ha | ha
        · obtain ⟨h1, h2⟩ := hmem₁ a ha
          exact ⟨h1, hsub₂ h2⟩
        · obtain ⟨h1, h2⟩ := hmem₂ a ha
          exact ⟨fun hc => h1 (hsub₁ hc), h2⟩
      · refine List.pairwise_append.mpr ⟨hpw₁, hpw₂, ?_⟩
        intro a ha b hb
        obtain ⟨_, ha2⟩ := hmem₁ a ha
        obtain ⟨hb1, _⟩ := hmem₂ b hb
        exact fun hc => hb1 (hc ▸ ha2)

/-- The dedup invariant for one whole `fetch_all_articles` invocation. -/
lemma fetch_all_articles_inv (getContent : String → String) (max_items : Nat)
    (sources : List String) (newsData : String → List RawNewsArticle)
    (hnStories : List HNStory) (seen : List String) :
    (∀ a ∈ (fetch_all_articles getContent max_items sources newsData hnStories seen).1,
      pyStrip a.url ∉ seen ∧
        pyStrip a.url ∈
          (fetch_all_articles getContent max_items sources newsData hnStories seen).2) ∧
    seen ⊆ (fetch_all_articles getContent max_items sources newsData hnStories seen).2 ∧
    List.Pairwise urlDistinct
      (fetch_all_articles getContent max_items sources newsData hnStories seen).1 := by
  obtain ⟨hmem₁, hsub₁, hpw₁⟩ := newsSourcesLoop_inv getContent newsData sources seen
  obtain ⟨hmem₂, hsub₂, hpw₂⟩ := hnEmitLoop_inv getContent
    (((sortByCommentsDesc hnStories).filter urlTruthy).take max_items)
    (newsSourcesLoop getContent newsData seen sources).2
  rw [fetch_all_articles]
  refine ⟨?_, fun u hu => hsub₂ (hsub₁ hu), ?_⟩
  · intro a ha
    rcases List.mem_append.mp ha with ha | ha
    · obtain ⟨h1, h2⟩ := hmem₁ a ha
      exact ⟨h1, hsub₂ h2⟩
    · obtain ⟨h1, h2⟩ := hmem₂ a ha
      exact ⟨fun hc => h1 (hsub₁ hc), h2⟩
  · refine List.pairwise_append.mpr ⟨hpw₁, hpw₂, ?_⟩
    intro a ha b hb
    obtain ⟨_, ha2⟩ := hmem₁ a ha
    obtain ⟨hb1, _⟩ := hmem₂ b hb
    exact fun hc => hb1 (hc ▸ ha2)

/-- C6: the `_mark_if_new` contract — false for a whitespace-only URL, true
for a fresh normalized URL, false on every call whose normalized URL equals
one already submitted — and the dedup invariant: within one
`fetch_all_articles` invocation no two returned articles have equal
normalized URLs, whatever the upstream responses return. -/
theorem c6_mark_if_new_contract_and_dedup_invariant :
    (∀ (seen : List String) (url : String),
      pyStrip url = "" → (mark_if_new seen url).1 = false) ∧
    (∀ (seen : List String) (url : String),
      pyStrip url ≠ "" → pyStrip url ∉ seen → (mark_if_new seen url).1 = true) ∧
    (∀ (seen : List String) (url url' : String),
      pyStrip url' = pyStrip url →
      (mark_if_new (mark_if_new seen url).2 url').1 = false) ∧
    (∀ (getContent : String → String) (max_items : Nat) (sources : List String)
        (newsData : String → List RawNewsArticle) (hnStories : List HNStory)
        (seen : List String),
      List.Pairwise urlDistinct
        (fetch_all_articles getContent max_items sources newsData hnStories seen).1) := by
  refine ⟨mark_if_new_fst_false_of_strip_empty, mark_if_new_fst_true_of_new,
    ?_, ?_⟩
  · intro seen url url' heq
    by_cases hempty : pyStrip url = ""
    · exact mark_if_new_fst_false_of_strip_empty _ url' (heq.trans hempty)
    · have hmem : pyStrip url' ∈ (mark_if_new seen url).2 := by
        rw [heq]
        exact mark_if_new_strip_mem_snd seen url hempty
      rw [mark_if_new, if_neg ?_, if_pos hmem]
      · intro hc
        rw [hc] at hmem
        exact hempty (heq ▸ hc)
  · intro getContent max_items sources newsData hnStories seen
    exact (fetch_all_articles_inv getContent max_items sources newsData
      hnStories seen).2.2

theorem c6_mark_if_new_contract_and_dedup_invariant_witness :
    (mark_if_new ["x"] "  ").1 = false ∧
    (mark_if_new ["x"] " a ").1 = true ∧
    (mark_if_new (mark_if_new ["x"] " a ").2 "a").1 = false :=
  ⟨c6_mark_if_new_contract_and_dedup_invariant.1 ["x"] "  " (by decide),
   c6_mark_if_new_contract_and_dedup_invariant.2.1 ["x"] " a " (by decide) (by decide),
   c6_mark_if_new_contract_and_dedup_invariant.2.2.1 ["x"] " a " "a" (by decide)⟩

/-! Section: C5: dedup state across fetch cycles -/

/-- C5 counterexample: on the same fetcher state, a URL emitted by one
`fetch_all_articles` invocation is NOT emitted again by a later invocation
fed the same upstream story — the seen set persists, because
`fetch_all_articles` never clears it and no caller in the repository invokes
`reset_session`.  First cycle emits `"http://x"`; the second cycle, started
from the first cycle's final state, emits nothing. -/
theorem c5_counterexample_dedup_leaks_across_cycles :
    ((fetch_all_articles (fun _ => "") 20 ["hacker-news"] (fun _ => [])
        [⟨"A", some "http://x", 30, 100, "id0"⟩] []).1).map Article.url =
      ["http://x"] ∧
    (fetch_all_articles (fun _ => "") 20 ["hacker-news"] (fun _ => [])
        [⟨"A", some "http://x", 30, 100, "id0"⟩]
        (fetch_all_articles (fun _ => "") 20 ["hacker-news"] (fun _ => [])
          [⟨"A", some "http://x", 30, 100, "id0"⟩] []).2).1 = [] := by
  decide

/-- C5 as amended: `reset_session` clears all recorded URLs, and a fetch
cycle started from a reset (or fresh) state deduplicates from scratch; but
`fetch_all_articles` itself performs no reset and no caller in the
repository invokes `reset_session`, so on the same fetcher the second cycle
re-emits a previously emitted URL only if `reset_session` is called between
the cycles — with the reset inserted, the URL is emitted again. -/
theorem c5_amended_reemission_requires_reset :
    (∀ seen : List String, reset_session seen = []) ∧
    (∀ (getContent : String → String) (max_items : Nat) (sources : List String)
        (newsData : String → List RawNewsArticle) (hnStories : List HNStory)
        (seen : List String),
      fetch_all_articles getContent max_items sources newsData hnStories
          (reset_session seen) =
        fetch_all_articles getContent max_items sources newsData hnStories []) ∧
    ((fetch_all_articles (fun _ => "") 20 ["hacker-news"] (fun _ => [])
        [⟨"A", some "http://x", 30, 100, "id0"⟩]
        (reset_session
          (fetch_all_articles (fun _ => "") 20 ["hacker-news"] (fun _ => [])
            [⟨"A", some "http://x", 30, 100, "id0"⟩] []).2)).1).map Article.url =
      ["http://x"] :=
  ⟨fun _ => rfl, fun _ _ _ _ _ _ => rfl, by decide⟩

/-! Section: C7: Hacker-News ordering and truncation -/

lemma mem_insertByCommentsDesc {t s : HNStory} {l : List HNStory} :
    t ∈ insertByCommentsDesc s l ↔ t = s ∨ t ∈ l := by
  induction l with
  | nil => simp [insertByCommentsDesc]
  | cons u us ih =>
    rw [insertByCommentsDesc]
    split_ifs with h
    · simp only [List.mem_cons, ih]
      tauto
    · simp only [List.mem_cons]

lemma insertByCommentsDesc_pairwise {s : HNStory} {l : List HNStory}
    (h : List.Pairwise commentsGE l) :
    List.Pairwise commentsGE (insertByCommentsDesc s l) := by
  induction l with
  | nil => simp [insertByCommentsDesc, commentsGE]
  | cons u us ih =>
    rw [insertByCommentsDesc]
    obtain ⟨hu, hus⟩ := List.pairwise_cons.mp h
    split_ifs with hlt
    · refine List.pairwise_cons.mpr ⟨?_, ih hus⟩
      intro x hx
      rcases mem_insertByCommentsDesc.mp hx with rfl | hx
      · exact Nat.le_of_lt hlt
      · exact hu x hx
    · refine List.pairwise_cons.mpr ⟨?_, h⟩
      intro x hx
      rcases List.mem_cons.mp hx with rfl | hx
      · exact Nat.le_of_not_lt hlt
      · exact Nat.le_trans (hu x hx) (Nat.le_of_not_lt hlt)

lemma sortByCommentsDesc_pairwise (l : List HNStory) :
    List.Pairwise commentsGE (sortByCommentsDesc l) := by
  induction l with
  | nil => simp [sortByCommentsDesc]
  | cons s ss ih => exact insertByCommentsDesc_pairwise ih

lemma hnEmitLoop_sublist (getContent : String → String) :
    ∀ (xs : List HNStory) (seen : List String),
      List.Sublist (hnEmitLoop getContent seen xs).1
        (xs.map (mkHNArticle getContent)) := by
  intro xs
  induction xs with
  | nil => intro seen; simp [hnEmitLoop]
  | cons s rest ih =>
    intro seen
    rw [hnEmitLoop]
    split_ifs with hm
    · exact List.Sublist.cons₂ _ (ih _)
    · exact List.Sublist.cons _ (ih _)

/-- C7: every `fetch_hacker_news` result is truncated to at most `max_items`
articles and is sorted by descending comment count; on the scenario input
(8 qualifying stories with engagement 50,40,30,20,10,5,3,1 arriving in
scrambled order, distinct URLs, `max_items = 5`) exactly the top 5 come
back, hottest first. -/
theorem c7_hn_sorted_desc_and_truncated :
    (∀ (getContent : String → String) (max_items : Nat) (seen : List String)
        (stories : List HNStory),
      (fetch_hacker_news getContent max_items seen stories).1.length ≤ max_items ∧
      List.Pairwise
        (fun a b : Article => b.hn_comments.getD 0 ≤ a.hn_comments.getD 0)
        (fetch_hacker_news getContent max_items seen stories).1) ∧
    ((fetch_hacker_news (fun _ => "") 5 []
        [⟨"t10", some "u10", 10, 0, "i1"⟩, ⟨"t50", some "u50", 50, 0, "i2"⟩,
         ⟨"t3", some "u3", 3, 0, "i3"⟩, ⟨"t40", some "u40", 40, 0, "i4"⟩,
         ⟨"t1", some "u1", 1, 0, "i5"⟩, ⟨"t30", some "u30", 30, 0, "i6"⟩,
         ⟨"t5", some "u5", 5, 0, "i7"⟩, ⟨"t20", some "u20", 20, 0, "i8"⟩]).1).map
        (fun a => (a.url, a.hn_comments.getD 0)) =
      [("u50", 50), ("u40", 40), ("u30", 30), ("u20", 20), ("u10", 10)] := by
  refine ⟨?_, by decide⟩
  intro getContent max_items seen stories
  have hsub := hnEmitLoop_sublist getContent
    (((sortByCommentsDesc stories).filter urlTruthy).take max_items) seen
  constructor
  · calc (fetch_hacker_news getContent max_items seen stories).1.length
        ≤ ((((sortByCommentsDesc stories).filter urlTruthy).take max_items).map
            (mkHNArticle getContent)).length := hsub.length_le
      _ = (((sortByCommentsDesc stories).filter urlTruthy).take max_items).length := by
            rw [List.length_map]
      _ ≤ max_items := List.length_take_le _ _
  · have hpw : List.Pairwise commentsGE
        (((sortByCommentsDesc stories).filter urlTruthy).take max_items) :=
      ((sortByCommentsDesc_pairwise stories).filter urlTruthy).sublist
        (List.take_sublist _ _)
    have hpwmap : List.Pairwise
        (fun a b : Article => b.hn_comments.getD 0 ≤ a.hn_comments.getD 0)
        ((((sortByCommentsDesc stories).filter urlTruthy).take max_items).map
          (mkHNArticle getContent)) := by
      rw [List.pairwise_map]
      exact hpw.imp (fun h => h)
    exact hpwmap.sublist hsub

/-! Section: C8: what `_get_questions` strips from a line -/

/-- C8 counterexample: on the input line `"- topic-"` the code produces
`"topic"` — the trailing `'-'` is stripped too, because Python
`strip("- ")` removes dash/space characters from BOTH ends — whereas the
claim's leading-markers-only reading produces `"topic-"`. -/
theorem c8_counterexample_trailing_dash_stripped :
    get_questions "- topic-" = ["topic"] ∧
    spec_topic_of_line "- topic-" = "topic-" ∧
    ("topic" : String) ≠ "topic-" := by
  decide

lemma pyStripList_infix (f : Char → Bool) (cs : List Char) :
    List.IsInfix (pyStripList f cs) cs := by
  have h1 : List.IsSuffix (cs.dropWhile f) cs := List.dropWhile_suffix f
  have h2 : List.IsSuffix ((cs.dropWhile f).reverse.dropWhile f)
      (cs.dropWhile f).reverse := List.dropWhile_suffix f
  have h3 : List.IsPrefix ((cs.dropWhile f).reverse.dropWhile f).reverse
      (cs.dropWhile f) := by
    have := List.reverse_prefix.mpr h2
    rwa [List.reverse_reverse] at this
  exact List.IsInfix.trans h3.isInfix h1.isInfix

/-- C8 as amended: every topic `_get_questions` produces comes from a
non-blank line of the input, and equals that line stripped of ALL leading
and trailing `'-'`/`' '` characters and surrounding whitespace (not only
leading `"- "` markers); the part that survives is preserved exactly — it is
a contiguous substring of the original line, interior dashes and case
intact. -/
theorem c8_amended_strips_dash_space_at_both_ends :
    ∀ (input t : String), t ∈ get_questions input →
      ∃ l, l ∈ pySplitLines input ∧ pyStrip l ≠ "" ∧
        t = pyStrip (pyStripWith isDashSpace l) ∧
        List.IsInfix t.data l.data := by
  intro input t ht
  rw [get_questions] at ht
  split_ifs at ht with hempty
  · exact absurd ht (List.not_mem_nil t)
  · obtain ⟨l, hl, rfl⟩ := List.mem_map.mp ht
    obtain ⟨hl', hkeep⟩ := List.mem_filter.mp hl
    refine ⟨l, hl', by simpa using hkeep, rfl, ?_⟩
    have h1 : List.IsInfix (pyStripList Char.isWhitespace
        (pyStripList isDashSpace l.data)) (pyStripList isDashSpace l.data) :=
      pyStripList_infix _ _
    have h2 : List.IsInfix (pyStripList isDashSpace l.data) l.data :=
      pyStripList_infix _ _
    exact List.IsInfix.trans h1 h2

theorem c8_amended_strips_dash_space_at_both_ends_witness :
    ∃ l, l ∈ pySplitLines "- topic-" ∧ pyStrip l ≠ "" ∧
      ("topic" : String) = pyStrip (pyStripWith isDashSpace l) ∧
      List.IsInfix ("topic" : String).data l.data :=
  c8_amended_strips_dash_space_at_both_ends "- topic-" "topic" (by decide)

/-! Section: C9: what the pipeline actually does -/

/-- C9 (code bug): the pipeline cannot exhibit the claimed skip / drop /
save-then-yield behaviour at all — for every database state, topic text,
article and oracle behaviour, `process_articles` on a non-empty article
list yields nothing and aborts with the `AttributeError` of the missing
`ArticleDatabase.article_exists`, raised at src/llm_processor.py:253
before any skip, verification, save or yield; concretely so even for one
article with a topic the oracle would answer `"1. yes"` to. -/
theorem c9_pipeline_aborts_on_missing_article_exists :
    (∀ (db : List String) (it : String) (a : Article)
        (b : Except String (List Outcome))
        (rest : List (Article × Except String (List Outcome))),
      process_articles db it ((a, b) :: rest) =
        ([], .error article_exists_error)) ∧
    process_articles [] "t1"
        [(⟨"A", "u", "s", "d", "c", none⟩, .ok [.success "1. yes"])] =
      ([], .error article_exists_error) :=
  ⟨fun _ _ _ _ _ => rfl, rfl⟩

end HNFiltered
